import Mathlib

/-!
Verification of the agent-lightning webshop recipe core: the rollout/attempt
store contract, the span-to-triplet adapter, the `generate_id` utility and the
training-config builder.  Each Python operation is embedded shallowly as an
executable Lean function; stateful store operations thread an explicit state
value, fallible operations return `Except`.
-/

set_option maxHeartbeats 1000000

namespace AgentLightning

/-! ## Character-list string helpers

Python string operations used by the embedded code (slicing, splitting,
trimming, integer parsing) are modelled on `List Char`, which the kernel can
evaluate. -/

def splitOnChar (sep : Char) : List Char → List (List Char)
  | [] => [[]]
  | c :: rest =>
    let r := splitOnChar sep rest
    if c = sep then [] :: r
    else
      match r with
      | [] => [[c]]
      | g :: gs => (c :: g) :: gs

def trimSpaces (cs : List Char) : List Char :=
  ((cs.dropWhile (· = ' ')).reverse.dropWhile (· = ' ')).reverse

def digitVal (c : Char) : Option Nat :=
  if '0' ≤ c ∧ c ≤ '9' then some (c.toNat - '0'.toNat) else none

def parseNatChars (cs : List Char) : Option Nat :=
  match cs with
  | [] => none
  | _ =>
    cs.foldl
      (fun acc c =>
        match acc, digitVal c with
        | some n, some d => some (n * 10 + d)
        | _, _ => none)
      (some 0)

def parseIntChars (cs : List Char) : Option Int :=
  match cs with
  | '-' :: rest => (parseNatChars rest).map (fun n => -(n : Int))
  | _ => (parseNatChars cs).map (fun n => (n : Int))

/-- Exact decimal numbers as written in telemetry payloads: value is
`mantissa / 10 ^ exp`.  Stored structurally; the embedding never needs
rational arithmetic on them. -/
structure Dec where
  mantissa : Int
  exp : Nat
deriving DecidableEq

def parseDecChars (cs : List Char) : Option Dec :=
  match splitOnChar '.' cs with
  | [whole] => (parseIntChars whole).map (fun n => ⟨n, 0⟩)
  | [whole, frac] =>
    match parseIntChars whole, parseNatChars frac with
    | some n, some f =>
      let sign : Int := if n < 0 ∨ whole = ['-', '0'] then -1 else 1
      some ⟨n * (10 : Int) ^ frac.length + sign * (f : Int), frac.length⟩
    | _, _ => none
  | _ => none

/-- Returns the remainder of `cs` after the literal lead-in `pre`, when `cs`
starts with `pre`. -/
def stripLead : List Char → List Char → Option (List Char)
  | [], cs => some cs
  | _ :: _, [] => none
  | p :: ps, c :: cs => if p = c then stripLead ps cs else none

def isHexLower (c : Char) : Bool :=
  ("0123456789abcdef".toList).contains c

/-! ## Embedding of `agentlightning/utils/id.py` -/

/-- Modelled from the Python standard library contract: `hashlib.sha1(...)
.hexdigest()` is a 40-character lowercase hexadecimal string.  The digest is
abstracted as a parameter constrained by this predicate, since its exact value
depends on a random UUID. -/
def sha1HexDigest (d : List Char) : Prop :=
  d.length = 40 ∧ ∀ c ∈ d, isHexLower c = true

instance (d : List Char) : Decidable (sha1HexDigest d) := by
  unfold sha1HexDigest; infer_instance

/-- Embedding of `generate_id` from `agentlightning/utils/id.py`: reject
non-positive lengths with `ValueError`, otherwise slice the 40-character
hexdigest to the requested length. -/
def generate_id (length : Int) (digest : List Char) : Except String (List Char) :=
  if length ≤ 0 then .error "length must be a positive integer"
  else .ok (digest.take length.toNat)

/-- C9: `generate_id(length)` raises `ValueError` exactly when `length ≤ 0`;
for every positive length it returns a lowercase hexadecimal string whose
length equals `min length 40`, so for any length greater than 40 the returned
ID is strictly shorter than requested. -/
theorem c9_generate_id_length_contract (length : Int) (digest : List Char)
    (hd : sha1HexDigest digest) :
    ((generate_id length digest).isOk = false ↔ length ≤ 0) ∧
    (length ≤ 0 → generate_id length digest = .error "length must be a positive integer") ∧
    (0 < length → ∃ s, generate_id length digest = .ok s ∧
      s.length = min length.toNat 40 ∧ (∀ c ∈ s, isHexLower c = true) ∧
      (40 < length → (s.length : Int) < length)) := by
  obtain ⟨hlen, hhex⟩ := hd
  by_cases h : length ≤ 0
  · refine ⟨?_, fun _ => ?_, fun hpos => absurd h (by omega)⟩
    · unfold generate_id
      rw [if_pos h]
      exact iff_of_true rfl h
    · unfold generate_id
      rw [if_pos h]
  · refine ⟨?_, fun hle => absurd hle h, fun hpos => ?_⟩
    · unfold generate_id
      rw [if_neg h]
      exact iff_of_false (by simp [Except.isOk, Except.toBool]) h
    · refine ⟨digest.take length.toNat, ?_, ?_, ?_, ?_⟩
      · unfold generate_id
        rw [if_neg h]
      · rw [List.length_take, hlen]
      · intro c hc
        exact hhex c (List.mem_of_mem_take hc)
      · intro h40
        rw [List.length_take, hlen]
        omega

def sampleDigest : List Char := "0123456789abcdef0123456789abcdef01234567".toList

theorem c9_generate_id_length_contract_witness :
    ((generate_id 50 sampleDigest).isOk = false ↔ (50 : Int) ≤ 0) ∧
    ((50 : Int) ≤ 0 → generate_id 50 sampleDigest = .error "length must be a positive integer") ∧
    ((0 : Int) < 50 → ∃ s, generate_id 50 sampleDigest = .ok s ∧
      s.length = min (50 : Int).toNat 40 ∧ (∀ c ∈ s, isHexLower c = true) ∧
      ((40 : Int) < 50 → (s.length : Int) < 50)) :=
  c9_generate_id_length_contract 50 sampleDigest (by decide)

/-! ## Embedding of `contrib/recipes/webshop/agl/config.py`

Python dictionaries are mutable heap objects, so `_create_config`'s claim that
the module-level `RL_TRAINING_CONFIG` is never mutated is a frame property.
We model a heap of dictionary objects addressed by `Nat`, with scalar values
(numbers, strings, booleans, lists that are never traversed) collapsed to
`PyVal.prim` and nested dictionaries held by reference. -/

inductive PyVal where
  | prim : String → PyVal
  | ref : Nat → PyVal
deriving DecidableEq

def PyVal.isPrim : PyVal → Bool
  | .prim _ => true
  | .ref _ => false

abbrev PyDict := List (String × PyVal)

structure Heap where
  objs : List (Nat × PyDict)
  nextAddr : Nat
deriving DecidableEq

def Heap.lookup (h : Heap) (a : Nat) : Option PyDict :=
  (h.objs.find? (fun p => p.1 == a)).map (·.2)

def Heap.set (h : Heap) (a : Nat) (d : PyDict) : Heap :=
  { h with objs := h.objs.map (fun p => if p.1 == a then (a, d) else p) }

def Heap.alloc (h : Heap) (d : PyDict) : Heap × Nat :=
  ({ objs := h.objs ++ [(h.nextAddr, d)], nextAddr := h.nextAddr + 1 }, h.nextAddr)

def dictGet (d : PyDict) (k : String) : Option PyVal :=
  (d.find? (fun p => p.1 == k)).map (·.2)

/-- Python `d[k] = v`: replace the binding when the key exists, append it
otherwise. -/
def dictSet (d : PyDict) (k : String) (v : PyVal) : PyDict :=
  if d.any (fun p => p.1 == k) then d.map (fun p => if p.1 == k then (k, v) else p)
  else d ++ [(k, v)]

/-- Embedding of `copy.deepcopy` on a dictionary value: recursively copy every
reachable dictionary into freshly allocated addresses.  Fuel bounds the
recursion depth through the heap; callers always pass enough fuel for the
acyclic configuration trees that occur. -/
def deepcopyVal : Nat → Heap → PyVal → Heap × PyVal
  | _, h, .prim s => (h, .prim s)
  | 0, h, .ref _ => (h, .prim "")
  | fuel + 1, h, .ref a =>
    match h.lookup a with
    | none => (h, .prim "")
    | some d =>
      let (h1, d') := d.foldl
        (fun acc kv =>
          let (h', v') := deepcopyVal fuel acc.1 kv.2
          (h', acc.2 ++ [(kv.1, v')]))
        (h, ([] : PyDict))
      let (h2, a') := h1.alloc d'
      (h2, .ref a')

/-- Follows a key path through dictionary references, returning the address of
the dictionary reached by `parts`; models the `target = target[part]` walk in
`_create_config`. -/
def walkPath (h : Heap) : Nat → List String → Option Nat
  | a, [] => some a
  | a, k :: rest =>
    match h.lookup a with
    | none => none
    | some d =>
      match dictGet d k with
      | some (.ref b) => walkPath h b rest
      | _ => none

/-- Mutates the dictionary at the walked-to address, when the walk succeeded
and the address is live. -/
def setAt (h : Heap) (addrOpt : Option Nat) (k : String) (v : PyVal) : Heap :=
  match addrOpt with
  | none => h
  | some a =>
    match h.lookup a with
    | none => h
    | some d => h.set a (dictSet d k v)

/-- Embedding of `target[parts[-1]] = value` after walking `parts[:-1]` from
`root`; a failed walk (Python `KeyError`/`TypeError`) leaves the heap
untouched, which is all the frame theorem needs. -/
def setPath (h : Heap) (root : Nat) (path : List String) (v : PyVal) : Heap :=
  match path.reverse with
  | [] => h
  | lastKey :: revInit => setAt h (walkPath h root revInit.reverse) lastKey v

/-- Splits on each leftmost occurrence of a double underscore, the way
Python's `key.split("__")` does for override keys such as
`actor_rollout_ref__model__path`. -/
def splitDunderChars : List Char → List (List Char)
  | [] => [[]]
  | '_' :: '_' :: rest => [] :: splitDunderChars rest
  | c :: rest =>
    match splitDunderChars rest with
    | [] => [[c]]
    | g :: gs => (c :: g) :: gs

def splitDunder (k : String) : List String :=
  (splitDunderChars k.toList).map (fun g => String.mk g)

/-- Applies the `for key, value in overrides.items()` loop of
`_create_config`. -/
def applyOverrides (root : Nat) : Heap → List (String × PyVal) → Heap
  | h, [] => h
  | h, (k, v) :: rest => applyOverrides root (setPath h root (splitDunder k) v) rest

/-- Embedding of `_create_config`: deep-copy the base configuration, assign
`trainer.experiment_name` and `trainer.project_name` on the copy, then apply
the double-underscore overrides to the copy.  Returns the final heap and the
address of the copied configuration. -/
def create_config (h : Heap) (baseAddr : Nat) (experimentName projectName : String)
    (overrides : List (String × PyVal)) (fuel : Nat) : Heap × Nat :=
  let (h1, cv) := deepcopyVal fuel h (.ref baseAddr)
  match cv with
  | .ref c =>
    let h2 := setPath h1 c ["trainer", "experiment_name"] (.prim experimentName)
    let h3 := setPath h2 c ["trainer", "project_name"] (.prim projectName)
    (applyOverrides c h3 overrides, c)
  | .prim _ => (h1, baseAddr)

/-- Heap of the module-level `RL_TRAINING_CONFIG` dictionary, one address per
nested dictionary; scalar and list leaves are collapsed to `prim` renderings
of their Python literals. -/
def rlTrainingConfigHeap : Heap :=
  { objs :=
      [ (0, [("adv_estimator", .prim "grpo"), ("use_kl_in_reward", .prim "False")]),
        (1, [("train_batch_size", .prim "8"), ("max_prompt_length", .prim "4096"),
             ("max_response_length", .prim "1024"), ("truncation", .prim "error")]),
        (2, [("format", .prim "hermes")]),
        (3, [("enable_auto_tool_choice", .prim "True"), ("tool_call_parser", .prim "hermes")]),
        (4, [("vllm", .ref 3)]),
        (5, [("tensor_model_parallel_size", .prim "1"), ("n", .prim "4"),
             ("log_prob_micro_batch_size_per_gpu", .prim "4"), ("multi_turn", .ref 2),
             ("name", .prim "vllm"), ("gpu_memory_utilization", .prim "0.8"),
             ("engine_kwargs", .ref 4)]),
        (6, [("lr", .prim "5e-6")]),
        (7, [("param_offload", .prim "True"), ("optimizer_offload", .prim "True")]),
        (8, [("ppo_mini_batch_size", .prim "8"), ("ppo_micro_batch_size_per_gpu", .prim "4"),
             ("optim", .ref 6), ("use_kl_loss", .prim "False"), ("kl_loss_coef", .prim "0.0"),
             ("entropy_coeff", .prim "0.01"), ("clip_ratio_low", .prim "0.2"),
             ("clip_ratio_high", .prim "0.3"), ("fsdp_config", .ref 7)]),
        (9, [("param_offload", .prim "True")]),
        (10, [("log_prob_micro_batch_size_per_gpu", .prim "8"), ("fsdp_config", .ref 9)]),
        (11, [("path", .prim "Qwen/Qwen2.5-3B-Instruct"), ("use_remove_padding", .prim "True"),
              ("enable_gradient_checkpointing", .prim "True")]),
        (12, [("rollout", .ref 5), ("actor", .ref 8), ("ref", .ref 10), ("model", .ref 11)]),
        (13, [("n_gpus_per_node", .prim "1"), ("val_before_train", .prim "True"),
              ("critic_warmup", .prim "0"), ("logger", .prim "console,wandb"),
              ("project_name", .prim "AgentLightning"), ("experiment_name", .prim "webshop"),
              ("nnodes", .prim "1"), ("test_freq", .prim "32"), ("total_epochs", .prim "50")]),
        (14, [("algorithm", .ref 0), ("data", .ref 1), ("actor_rollout_ref", .ref 12),
              ("trainer", .ref 13)]) ],
    nextAddr := 15 }

/-! ### Frame lemmas for the config heap -/

/-- Holds when a value contains no reference below address `n`. -/
def valHighB (n : Nat) : PyVal → Bool
  | .prim _ => true
  | .ref b => decide (n ≤ b)

def dictHighB (n : Nat) (d : PyDict) : Bool :=
  d.all (fun kv => valHighB n kv.2)

/-- Holds when every dictionary stored at an address `≥ n` references only
addresses `≥ n`: the copied configuration never points back into the shared
base. -/
def highInvB (h : Heap) (n : Nat) : Bool :=
  h.objs.all (fun p => !(decide (n ≤ p.1)) || dictHighB n p.2)

theorem find?_set_frame (a a' : Nat) (d : PyDict) (hne : a' ≠ a) :
    ∀ l : List (Nat × PyDict),
      List.find? (fun p => p.1 == a') (l.map (fun p => if p.1 == a then (a, d) else p)) =
        List.find? (fun p => p.1 == a') l
  | [] => rfl
  | p :: rest => by
    by_cases hpa : p.1 = a
    · have h1 : (if (p.1 == a) = true then (a, d) else p) = (a, d) := by simp [hpa]
      rw [List.map_cons, h1]
      rw [List.find?_cons_of_neg _ (by simp; exact fun hc => hne hc.symm),
        List.find?_cons_of_neg _ (by simp [hpa]; exact fun hc => hne hc.symm)]
      exact find?_set_frame a a' d hne rest
    · have h1 : (if (p.1 == a) = true then (a, d) else p) = p := by simp [hpa]
      rw [List.map_cons, h1]
      by_cases hp' : p.1 = a'
      · rw [List.find?_cons_of_pos _ (by simp [hp']), List.find?_cons_of_pos _ (by simp [hp'])]
      · rw [List.find?_cons_of_neg _ (by simp [hp']), List.find?_cons_of_neg _ (by simp [hp'])]
        exact find?_set_frame a a' d hne rest

theorem lookup_set_ne (h : Heap) (a : Nat) (d : PyDict) (a' : Nat) (hne : a' ≠ a) :
    (h.set a d).lookup a' = h.lookup a' := by
  unfold Heap.set Heap.lookup
  simp only
  rw [find?_set_frame a a' d hne]

theorem lookup_mem (h : Heap) (a : Nat) (d : PyDict) (hl : h.lookup a = some d) :
    (a, d) ∈ h.objs := by
  unfold Heap.lookup at hl
  obtain ⟨p, hfind, hp2⟩ := Option.map_eq_some'.mp hl
  have hmem := List.mem_of_find?_eq_some hfind
  have hkey : p.1 = a := by simpa using List.find?_some hfind
  have : p = (a, d) := by
    cases p
    simp_all
  rwa [this] at hmem

theorem dict_high_of_mem (h : Heap) (n a : Nat) (d : PyDict)
    (hinv : highInvB h n = true) (ha : n ≤ a) (hl : h.lookup a = some d) :
    dictHighB n d = true := by
  have hmem := lookup_mem h a d hl
  have := (List.all_eq_true.mp hinv) _ hmem
  simp only [Bool.or_eq_true, Bool.not_eq_true', decide_eq_false_iff_not] at this
  rcases this with hlow | hhigh
  · exact absurd ha hlow
  · exact hhigh

theorem walkPath_high (n : Nat) (path : List String) (h : Heap) (root b : Nat)
    (hinv : highInvB h n = true) (hroot : n ≤ root)
    (hw : walkPath h root path = some b) : n ≤ b := by
  induction path generalizing root with
  | nil =>
    simp only [walkPath, Option.some.injEq] at hw
    omega
  | cons k rest ih =>
    simp only [walkPath] at hw
    cases hl : h.lookup root with
    | none => simp [hl] at hw
    | some d =>
      simp only [hl] at hw
      cases hg : dictGet d k with
      | none => simp [hg] at hw
      | some v =>
        simp only [hg] at hw
        cases v with
        | prim s => simp at hw
        | ref b' =>
          have hdict := dict_high_of_mem h n root d hinv hroot hl
          have hvmem : ∃ kv ∈ d, kv.2 = PyVal.ref b' := by
            unfold dictGet at hg
            obtain ⟨p, hfind, hp2⟩ := Option.map_eq_some'.mp hg
            exact ⟨p, List.mem_of_find?_eq_some hfind, hp2⟩
          obtain ⟨kv, hkvmem, hkv2⟩ := hvmem
          have := (List.all_eq_true.mp hdict) _ hkvmem
          rw [hkv2] at this
          have hb' : n ≤ b' := of_decide_eq_true this
          exact ih b' hb' hw

theorem dictSet_high (n : Nat) (d : PyDict) (k : String) (v : PyVal)
    (hd : dictHighB n d = true) (hv : valHighB n v = true) :
    dictHighB n (dictSet d k v) = true := by
  unfold dictSet
  unfold dictHighB at *
  by_cases hany : d.any (fun p => p.1 == k) = true
  · rw [if_pos hany]
    rw [List.all_eq_true] at *
    intro kv hkv
    obtain ⟨p, hp, hpe⟩ := List.mem_map.mp hkv
    by_cases hpk : p.1 = k
    · rw [← hpe]
      simp only [hpk, beq_self_eq_true, if_pos]
      exact hv
    · rw [← hpe]
      have : ¬(p.1 == k) = true := by simp [hpk]
      rw [if_neg this]
      exact hd p hp
  · rw [if_neg hany]
    rw [List.all_eq_true] at *
    intro kv hkv
    rcases List.mem_append.mp hkv with hin | hin
    · exact hd kv hin
    · have : kv = (k, v) := by simpa using hin
      rw [this]
      exact hv

theorem set_highInv (h : Heap) (n a : Nat) (d : PyDict)
    (hinv : highInvB h n = true) (hd : dictHighB n d = true) :
    highInvB (h.set a d) n = true := by
  unfold highInvB Heap.set at *
  simp only
  rw [List.all_eq_true] at *
  intro p hp
  obtain ⟨q, hq, hqe⟩ := List.mem_map.mp hp
  by_cases hqa : q.1 = a
  · rw [← hqe]
    simp only [hqa, beq_self_eq_true, if_pos]
    simp [hd]
  · rw [← hqe]
    have : ¬(q.1 == a) = true := by simp [hqa]
    rw [if_neg this]
    exact hinv q hq

theorem setAt_frame (h : Heap) (n : Nat) (ao : Option Nat) (k : String) (v : PyVal)
    (hinv : highInvB h n = true)
    (hao : ∀ b, ao = some b → n ≤ b) (hv : valHighB n v = true) :
    (∀ a, a < n → (setAt h ao k v).lookup a = h.lookup a) ∧
      highInvB (setAt h ao k v) n = true := by
  cases ao with
  | none => exact ⟨fun a _ => rfl, hinv⟩
  | some addr =>
    have haddr : n ≤ addr := hao addr rfl
    simp only [setAt]
    cases hl : h.lookup addr with
    | none => exact ⟨fun a _ => rfl, hinv⟩
    | some dd =>
      have hdd : dictHighB n dd = true := dict_high_of_mem h n addr dd hinv haddr hl
      exact ⟨fun a ha => lookup_set_ne h addr _ a (by omega),
        set_highInv h n addr _ hinv (dictSet_high n dd k v hdd hv)⟩

theorem setPath_frame (h : Heap) (n root : Nat) (path : List String) (v : PyVal)
    (hinv : highInvB h n = true) (hroot : n ≤ root) (hv : valHighB n v = true) :
    (∀ a, a < n → (setPath h root path v).lookup a = h.lookup a) ∧
      highInvB (setPath h root path v) n = true := by
  unfold setPath
  cases hrev : path.reverse with
  | nil => exact ⟨fun a _ => rfl, hinv⟩
  | cons lastKey revInit =>
    exact setAt_frame h n (walkPath h root revInit.reverse) lastKey v hinv
      (fun b hb => walkPath_high n _ h root b hinv hroot hb) hv

theorem applyOverrides_frame (n root : Nat) (ov : List (String × PyVal)) :
    ∀ h : Heap, highInvB h n = true → n ≤ root →
      (∀ kv ∈ ov, kv.2.isPrim = true) →
      (∀ a, a < n → (applyOverrides root h ov).lookup a = h.lookup a) ∧
        highInvB (applyOverrides root h ov) n = true := by
  induction ov with
  | nil =>
    intro h hinv _ _
    exact ⟨fun a _ => rfl, hinv⟩
  | cons kv rest ih =>
    intro h hinv hroot hprim
    obtain ⟨k, v⟩ := kv
    have hv : valHighB n v = true := by
      have := hprim (k, v) (List.mem_cons_self _ _)
      cases v with
      | prim s => rfl
      | ref b => simp [PyVal.isPrim] at this
    have hsp := setPath_frame h n root (splitDunder k) v hinv hroot hv
    have hrest := ih (setPath h root (splitDunder k) v) hsp.2 hroot
      (fun kv hkv => hprim kv (List.mem_cons_of_mem _ hkv))
    refine ⟨fun a ha => ?_, hrest.2⟩
    have hun : applyOverrides root h ((k, v) :: rest) =
        applyOverrides root (setPath h root (splitDunder k) v) rest := rfl
    rw [hun, hrest.1 a ha, hsp.1 a ha]

theorem create_config_eq (h h1 : Heap) (baseAddr c : Nat) (e p : String)
    (ov : List (String × PyVal)) (fuel : Nat)
    (hdc : deepcopyVal fuel h (.ref baseAddr) = (h1, .ref c)) :
    create_config h baseAddr e p ov fuel =
      (applyOverrides c
        (setPath (setPath h1 c ["trainer", "experiment_name"] (.prim e)) c
          ["trainer", "project_name"] (.prim p)) ov, c) := by
  unfold create_config
  rw [hdc]

theorem create_config_frame (h h1 : Heap) (baseAddr c n : Nat) (e p : String)
    (ov : List (String × PyVal)) (fuel : Nat)
    (hdc : deepcopyVal fuel h (.ref baseAddr) = (h1, .ref c))
    (hlow : ∀ a, a < n → h1.lookup a = h.lookup a)
    (hinv : highInvB h1 n = true) (hc : n ≤ c)
    (hprim : ∀ kv ∈ ov, kv.2.isPrim = true) :
    ∀ a, a < n → (create_config h baseAddr e p ov fuel).1.lookup a = h.lookup a := by
  intro a ha
  rw [create_config_eq h h1 baseAddr c e p ov fuel hdc]
  have hs1 := setPath_frame h1 n c ["trainer", "experiment_name"] (.prim e) hinv hc rfl
  have hs2 := setPath_frame _ n c ["trainer", "project_name"] (.prim p) hs1.2 hc rfl
  have hov := applyOverrides_frame n c ov _ hs2.2 hc hprim
  show (applyOverrides c _ ov).lookup a = h.lookup a
  rw [hov.1 a ha, hs2.1 a ha, hs1.1 a ha, hlow a ha]

/-- C10: every `_create_config` call (hence every `config_fast`,
`config_qwen`, `config_qwen_1_5b`, `config_qwen_7b` call), with any
double-underscore override keys and scalar override values, leaves the
module-level `RL_TRAINING_CONFIG` dictionary unchanged: the base is
deep-copied before the experiment-name assignment and the overrides are
applied only to the copy, so no nested override path mutates the shared
base. -/
theorem c10_create_config_preserves_base (e p : String) (ov : List (String × PyVal))
    (hprim : ∀ kv ∈ ov, kv.2.isPrim = true) :
    ∀ a, a < rlTrainingConfigHeap.nextAddr →
      (create_config rlTrainingConfigHeap 14 e p ov 20).1.lookup a =
        rlTrainingConfigHeap.lookup a := by
  have h2 : (deepcopyVal 20 rlTrainingConfigHeap (.ref 14)).2 = .ref 29 := by decide
  have hdc : deepcopyVal 20 rlTrainingConfigHeap (.ref 14) =
      ((deepcopyVal 20 rlTrainingConfigHeap (.ref 14)).1, .ref 29) := by
    rw [← h2]
  exact create_config_frame rlTrainingConfigHeap _ 14 29 15 e p ov 20 hdc
    (by decide) (by decide) (by decide) hprim

/-- Override list of `config_fast`, with its scalar values rendered as
`prim` leaves. -/
def configFastOverrides : List (String × PyVal) :=
  [("actor_rollout_ref__model__path", .prim "Qwen/Qwen2.5-0.5B-Instruct"),
   ("actor_rollout_ref__rollout__gpu_memory_utilization", .prim "0.6"),
   ("trainer__total_epochs", .prim "1"),
   ("trainer__total_training_steps", .prim "1"),
   ("trainer__test_freq", .prim "1")]

theorem c10_create_config_preserves_base_witness :
    (create_config rlTrainingConfigHeap 14 "webshop_fast_20250101000000" "AgentLightningCI"
        configFastOverrides 20).1.lookup 13 = rlTrainingConfigHeap.lookup 13 ∧
    (create_config rlTrainingConfigHeap 14 "webshop_fast_20250101000000" "AgentLightningCI"
        configFastOverrides 20).1.lookup 14 = rlTrainingConfigHeap.lookup 14 :=
  ⟨c10_create_config_preserves_base "webshop_fast_20250101000000" "AgentLightningCI"
      configFastOverrides (by decide) 13 (by decide),
    c10_create_config_preserves_base "webshop_fast_20250101000000" "AgentLightningCI"
      configFastOverrides (by decide) 14 (by decide)⟩

/-! ## The rollout/attempt store

The `InMemoryLightningStore` implementation is not part of this tree (only its
tests are), so the store is modelled from the spec's contract in §3–§4.2 and
the call shapes in `tests/test_store_integration.py`. -/

/-- Modelled from the spec: span attribute bags hold heterogeneous scalar or
array values (strings, lists of integers, JSON-encoded strings, numbers);
numbers are kept as exact decimals. -/
inductive AttrVal where
  | str : String → AttrVal
  | intList : List Int → AttrVal
  | num : Dec → AttrVal
deriving DecidableEq

/-- Modelled from the spec: an immutable telemetry record keyed by
`(rollout_id, attempt_id, span_id)`, with a trace ID, an optional store-level
sequence number, an optional parent span ID, a name, an attribute bag, and
start/end timestamps (represented as integer ticks). -/
structure Span where
  rollout_id : String
  attempt_id : String
  sequence_id : Option Nat
  trace_id : String
  span_id : String
  parent_id : Option String
  name : String
  attributes : List (String × AttrVal)
  start_time : Int
  end_time : Int
deriving DecidableEq

inductive RolloutStatus where
  | queued
  | running
  | succeeded
  | failed
deriving DecidableEq

/-- Modelled from the spec: a rollout owns an opaque unique ID, an input
payload, a mode tag and a lifecycle status. -/
structure Rollout where
  rollout_id : String
  input : List (String × AttrVal)
  mode : String
  status : RolloutStatus
deriving DecidableEq

/-- Modelled from the spec: an attempt records its owning rollout, the
assigned worker and an implicit ordinal establishing which attempt is
latest. -/
structure Attempt where
  attempt_id : String
  rollout_id : String
  worker_id : String
  ordinal : Nat
deriving DecidableEq

/-- Attempt designator accepted by `resolve_attempt` and `query_spans`:
either the literal string `"latest"` or an explicit attempt ID. -/
inductive AttemptSel where
  | latest
  | explicit (attempt_id : String)
deriving DecidableEq

/-- Store-level structural errors are NotFound-style (Python surfaces them as
`ValueError("... not found")`). -/
inductive StoreErr where
  | notFound (msg : String)
deriving DecidableEq

instance {ε α : Type} [DecidableEq ε] [DecidableEq α] : DecidableEq (Except ε α) := fun a b =>
  match a, b with
  | .error e, .error f =>
    if h : e = f then .isTrue (congrArg Except.error h)
    else .isFalse (fun hc => h (Except.error.inj hc))
  | .error _, .ok _ => .isFalse (fun hc => Except.noConfusion hc)
  | .ok _, .error _ => .isFalse (fun hc => Except.noConfusion hc)
  | .ok x, .ok y =>
    if h : x = y then .isTrue (congrArg Except.ok h)
    else .isFalse (fun hc => h (Except.ok.inj hc))

/-- Modelled from the spec: the in-memory store state — rollout registry,
FIFO work queue, attempt ledger (in mint order), append-only span log and
fresh-ID counters. -/
structure LightningStore where
  rollouts : List Rollout
  queue : List String
  attempts : List Attempt
  spans : List Span
  rolloutCounter : Nat
  attemptCounter : Nat
deriving DecidableEq

/-- Decimal digits of `n`, fuel-bounded so the kernel can evaluate it. -/
def natDigits : Nat → Nat → List Char
  | 0, _ => []
  | fuel + 1, n =>
    if n < 10 then [Char.ofNat (n + 48)]
    else natDigits fuel (n / 10) ++ [Char.ofNat (n % 10 + 48)]

def natIdStr (n : Nat) : String := String.mk (natDigits (n + 1) n)

/-- Modelled from the spec: `enqueue(input, mode)` allocates a fresh unique
rollout ID, stores input/mode, sets status to queued, and places the rollout
on the work queue; it never fails. -/
def enqueue_rollout (st : LightningStore) (input : List (String × AttrVal)) (mode : String) :
    LightningStore × Rollout :=
  let rid := "rollout-" ++ natIdStr st.rolloutCounter
  let r : Rollout := ⟨rid, input, mode, .queued⟩
  ({ st with
      rollouts := st.rollouts ++ [r],
      queue := st.queue ++ [rid],
      rolloutCounter := st.rolloutCounter + 1 }, r)

def findRollout (st : LightningStore) (rid : String) : Option Rollout :=
  st.rollouts.find? (fun r => r.rollout_id == rid)

def setRolloutStatus (st : LightningStore) (rid : String) (status : RolloutStatus) :
    LightningStore :=
  { st with
      rollouts := st.rollouts.map
        (fun r => if r.rollout_id == rid then { r with status := status } else r) }

/-- Modelled from the spec: `dequeue(worker_id)` atomically pops the next
queued rollout (FIFO), mints a new attempt with a fresh unique ID bound to
that rollout and worker, marks the rollout running, and returns both; it
returns none (not an error) when the queue is empty. -/
def dequeue_rollout (st : LightningStore) (workerId : String) :
    LightningStore × Option (Rollout × Attempt) :=
  match st.queue with
  | [] => (st, none)
  | rid :: rest =>
    match findRollout st rid with
    | none => ({ st with queue := rest }, none)
    | some r =>
      let aid := "attempt-" ++ natIdStr st.attemptCounter
      let att : Attempt := ⟨aid, rid, workerId, st.attemptCounter⟩
      let r' := { r with status := .running }
      ({ setRolloutStatus st rid .running with
          queue := rest,
          attempts := st.attempts ++ [att],
          attemptCounter := st.attemptCounter + 1 }, some (r', att))

/-- Keeps whichever attempt has the greater ordinal, preferring the newer on
ties. -/
def pickLater (acc : Option Attempt) (a : Attempt) : Option Attempt :=
  match acc with
  | none => some a
  | some b => if b.ordinal ≤ a.ordinal then some a else some b

/-- The attempt with the greatest ordinal among a rollout's attempts. -/
def latestAttempt (st : LightningStore) (rid : String) : Option Attempt :=
  (st.attempts.filter (fun a => a.rollout_id == rid)).foldl pickLater none

/-- Modelled from the spec: `resolve_attempt(rollout_id, attempt_id_or_latest)`
resolves the literal attempt ID if given, or the attempt with the greatest
ordinal if latest is given, failing with NotFound when the rollout or the
attempt does not exist. -/
def resolve_attempt (st : LightningStore) (rid : String) (sel : AttemptSel) :
    Except StoreErr Attempt :=
  match findRollout st rid with
  | none => .error (.notFound ("Rollout " ++ rid ++ " not found"))
  | some _ =>
    match sel with
    | .latest =>
      match latestAttempt st rid with
      | none => .error (.notFound ("Attempt latest not found for rollout " ++ rid))
      | some a => .ok a
    | .explicit aid =>
      match st.attempts.find? (fun a => a.rollout_id == rid && a.attempt_id == aid) with
      | none => .error (.notFound ("Attempt " ++ aid ++ " not found for rollout " ++ rid))
      | some a => .ok a

def validateSpans (st : LightningStore) : List Span → Except StoreErr Unit
  | [] => .ok ()
  | s :: rest =>
    match resolve_attempt st s.rollout_id (.explicit s.attempt_id) with
    | .error e => .error e
    | .ok _ => validateSpans st rest

/-- Next store-level sequence number for a rollout: one past the largest
sequence number already stored for it. -/
def nextSeqFor (spans : List Span) (rid : String) : Nat :=
  spans.foldl
    (fun acc s => if s.rollout_id == rid then max acc (s.sequence_id.getD 0 + 1) else acc) 0

/-- Assigns the store-level sequence number when the producer left it
unset. -/
def assignSeq (st : LightningStore) (s : Span) : Span :=
  match s.sequence_id with
  | some n => { s with sequence_id := some n }
  | none => { s with sequence_id := some (nextSeqFor st.spans s.rollout_id) }

def ingestSpans : LightningStore → List Span → LightningStore × List Span
  | st, [] => (st, [])
  | st, s :: rest =>
    let s' := assignSeq st s
    let (st2, stored) := ingestSpans { st with spans := st.spans ++ [s'] } rest
    (st2, s' :: stored)

/-- Modelled from the spec: `add_many(spans)` validates every span's
`(rollout_id, attempt_id)` pair against the ledger and rejects the whole call
with NotFound before applying any write when validation fails; on success it
assigns missing sequence numbers and appends each span to the log, returning
the stored spans. -/
def add_many_spans (st : LightningStore) (spans : List Span) :
    Except StoreErr (LightningStore × List Span) :=
  match validateSpans st spans with
  | .error e => .error e
  | .ok _ => .ok (ingestSpans st spans)

def seqKey (s : Span) : Nat := s.sequence_id.getD 0

def seqLE (a b : Span) : Prop := seqKey a ≤ seqKey b

instance : DecidableRel seqLE := fun a b => inferInstanceAs (Decidable (seqKey a ≤ seqKey b))

instance : IsTotal Span seqLE := ⟨fun a b => Nat.le_total (seqKey a) (seqKey b)⟩

instance : IsTrans Span seqLE := ⟨fun _ _ _ => Nat.le_trans⟩

/-- Modelled from the spec: `query(rollout_id, attempt_id)` resolves the
attempt, then returns all spans stored against that exact pair ordered by
ascending sequence number, the empty sequence when none exist. -/
def query_spans (st : LightningStore) (rid : String) (sel : AttemptSel) :
    Except StoreErr (List Span) :=
  match resolve_attempt st rid sel with
  | .error e => .error e
  | .ok att =>
    .ok (List.insertionSort seqLE
      (st.spans.filter (fun s => s.rollout_id == rid && s.attempt_id == att.attempt_id)))

/-! ### Store lemmas -/

theorem resolve_attempt_err_of_no_rollout (st : LightningStore) (rid : String) (sel : AttemptSel)
    (h : findRollout st rid = none) :
    resolve_attempt st rid sel = .error (.notFound ("Rollout " ++ rid ++ " not found")) := by
  unfold resolve_attempt
  rw [h]

theorem validateSpans_err (st : LightningStore) :
    ∀ spans : List Span, (∃ s ∈ spans, findRollout st s.rollout_id = none) →
      ∃ m, validateSpans st spans = .error (.notFound m)
  | [], h => absurd h (by simp)
  | s :: rest, h => by
    obtain ⟨t, ht, htn⟩ := h
    cases hres : resolve_attempt st s.rollout_id (.explicit s.attempt_id) with
    | error e =>
      cases e with
      | notFound m => exact ⟨m, by simp [validateSpans, hres]⟩
    | ok a =>
      rcases List.mem_cons.mp ht with rfl | htrest
      · rw [resolve_attempt_err_of_no_rollout st t.rollout_id (.explicit t.attempt_id) htn]
          at hres
        exact absurd hres (by simp)
      · obtain ⟨m, hm⟩ := validateSpans_err st rest ⟨t, htrest, htn⟩
        exact ⟨m, by simp [validateSpans, hres, hm]⟩

theorem query_spans_subset (st : LightningStore) (rid : String) (sel : AttemptSel)
    (l : List Span) (h : query_spans st rid sel = .ok l) :
    ∀ x ∈ l, x ∈ st.spans := by
  unfold query_spans at h
  cases hres : resolve_attempt st rid sel with
  | error e => rw [hres] at h; exact absurd h (by simp)
  | ok att =>
    rw [hres] at h
    have hl : List.insertionSort seqLE
        (st.spans.filter (fun s => s.rollout_id == rid && s.attempt_id == att.attempt_id)) = l := by
      simpa using h
    intro x hx
    rw [← hl] at hx
    have hxf := (List.perm_insertionSort seqLE _).mem_iff.mp hx
    exact List.mem_of_mem_filter hxf

/-- C1: when any span in a batch references a rollout ID unknown to the
registry, `add_many_spans` fails with a NotFound-style error, applies no
write (it returns no successor state at all), and consequently every span a
later `query_spans` can return over the caller's state was already stored
before the call — no partial ingestion. -/
theorem c1_add_many_spans_atomic_reject (st : LightningStore) (spans : List Span)
    (hbad : ∃ s ∈ spans, findRollout st s.rollout_id = none) :
    (∃ m, add_many_spans st spans = .error (.notFound m)) ∧
      (∀ rid sel l, query_spans st rid sel = .ok l → ∀ x ∈ l, x ∈ st.spans) := by
  constructor
  · obtain ⟨m, hm⟩ := validateSpans_err st spans hbad
    exact ⟨m, by simp [add_many_spans, hm]⟩
  · exact fun rid sel l h => query_spans_subset st rid sel l h

/-- Empty initial store. -/
def st0 : LightningStore := ⟨[], [], [], [], 0, 0⟩

/-- Store with one enqueued rollout, as at the start of every integration
test. -/
def stEnq : LightningStore := (enqueue_rollout st0 [] "train").1

/-- Store after additionally dequeuing that rollout for worker `test`,
minting its first attempt. -/
def stDeq : LightningStore := (dequeue_rollout stEnq "test").1

/-- Span targeting a rollout ID absent from the registry, as in
`test_span_ingestion_requires_valid_attempt`. -/
def invalidSpan : Span :=
  ⟨"invalid-rollout-id", "attempt-0", some 0, "t2", "s2", none, "test.span", [], 0, 1⟩

theorem c1_add_many_spans_atomic_reject_witness :
    (∃ m, add_many_spans stDeq [invalidSpan] = .error (.notFound m)) ∧
      (∀ rid sel l, query_spans stDeq rid sel = .ok l → ∀ x ∈ l, x ∈ stDeq.spans) :=
  c1_add_many_spans_atomic_reject stDeq [invalidSpan]
    ⟨invalidSpan, by decide, by decide⟩

theorem resolve_explicit_ok (st : LightningStore) (rid aid : String) (att : Attempt)
    (h : resolve_attempt st rid (.explicit aid) = .ok att) :
    att.rollout_id = rid ∧ att.attempt_id = aid ∧ att ∈ st.attempts := by
  cases hf : findRollout st rid with
  | none => simp [resolve_attempt, hf] at h
  | some r =>
    cases hfa : st.attempts.find? (fun a => a.rollout_id == rid && a.attempt_id == aid) with
    | none => simp [resolve_attempt, hf, hfa] at h
    | some b =>
      have hb : b = att := by simpa [resolve_attempt, hf, hfa] using h
      subst hb
      have hpb := List.find?_some hfa
      have hmem := List.mem_of_find?_eq_some hfa
      simp only [Bool.and_eq_true, beq_iff_eq] at hpb
      exact ⟨hpb.1, hpb.2, hmem⟩

theorem validateSpans_ok (st : LightningStore) :
    ∀ spans : List Span,
      (∀ s ∈ spans, ∃ a, resolve_attempt st s.rollout_id (.explicit s.attempt_id) = .ok a) →
      validateSpans st spans = .ok ()
  | [], _ => rfl
  | s :: rest, h => by
    obtain ⟨a, ha⟩ := h s (List.mem_cons_self _ _)
    have hr := validateSpans_ok st rest (fun t ht => h t (List.mem_cons_of_mem _ ht))
    simp [validateSpans, ha, hr]

theorem ingestSpans_cons (st : LightningStore) (s : Span) (rest : List Span) :
    ingestSpans st (s :: rest) =
      ((ingestSpans { st with spans := st.spans ++ [assignSeq st s] } rest).1,
        assignSeq st s :: (ingestSpans { st with spans := st.spans ++ [assignSeq st s] } rest).2) :=
  rfl

theorem ingestSpans_meta : ∀ (spans : List Span) (st : LightningStore),
    (ingestSpans st spans).1.rollouts = st.rollouts ∧
    (ingestSpans st spans).1.attempts = st.attempts ∧
    (ingestSpans st spans).1.spans = st.spans ++ (ingestSpans st spans).2
  | [], st => ⟨rfl, rfl, by simp [ingestSpans]⟩
  | s :: rest, st => by
    obtain ⟨h1, h2, h3⟩ := ingestSpans_meta rest { st with spans := st.spans ++ [assignSeq st s] }
    rw [ingestSpans_cons]
    refine ⟨h1, h2, ?_⟩
    simp only at h3 ⊢
    rw [h3]
    simp

theorem assignSeq_ids (st : LightningStore) (s : Span) :
    (assignSeq st s).rollout_id = s.rollout_id ∧ (assignSeq st s).attempt_id = s.attempt_id := by
  cases h : s.sequence_id <;> simp [assignSeq, h]

theorem ingestSpans_stored_ids : ∀ (spans : List Span) (st : LightningStore) (x : Span),
    x ∈ (ingestSpans st spans).2 →
      ∃ s ∈ spans, x.rollout_id = s.rollout_id ∧ x.attempt_id = s.attempt_id
  | [], st, x, hx => absurd hx (by simp [ingestSpans])
  | s :: rest, st, x, hx => by
    rw [ingestSpans_cons] at hx
    rcases List.mem_cons.mp hx with heq | hxr
    · subst heq
      exact ⟨s, List.mem_cons_self _ _, (assignSeq_ids st s).1, (assignSeq_ids st s).2⟩
    · obtain ⟨t, ht, hids⟩ := ingestSpans_stored_ids rest _ x hxr
      exact ⟨t, List.mem_cons_of_mem _ ht, hids⟩

theorem resolve_explicit_congr (st' st : LightningStore) (rid aid : String)
    (hr : st'.rollouts = st.rollouts) (ha : st'.attempts = st.attempts) :
    resolve_attempt st' rid (.explicit aid) = resolve_attempt st rid (.explicit aid) := by
  unfold resolve_attempt findRollout
  rw [hr, ha]

/-- C2: ingesting a batch of spans against a resolvable `(rollout, attempt)`
pair that has no spans yet succeeds, and `query_spans` on that pair then
returns exactly the stored spans (a permutation of what `add_many_spans`
returned) ordered by ascending sequence number; before the ingestion the same
query returns the empty list, not an error.  Queries are pure state readers,
so repeated queries without intervening writes are equal by construction. -/
theorem c2_query_returns_ingested_sorted (st : LightningStore) (rid aid : String)
    (att : Attempt) (spans : List Span)
    (hres : resolve_attempt st rid (.explicit aid) = .ok att)
    (hsp : ∀ s ∈ spans, s.rollout_id = rid ∧ s.attempt_id = aid)
    (hno : ∀ s ∈ st.spans, ¬(s.rollout_id = rid ∧ s.attempt_id = aid)) :
    query_spans st rid (.explicit aid) = .ok [] ∧
    ∃ st' stored, add_many_spans st spans = .ok (st', stored) ∧
      ∃ l, query_spans st' rid (.explicit aid) = .ok l ∧
        l.Perm stored ∧ List.Sorted seqLE l := by
  obtain ⟨hattR, hattA, hattMem⟩ := resolve_explicit_ok st rid aid att hres
  have hfilt0 : st.spans.filter
      (fun s => s.rollout_id == rid && s.attempt_id == att.attempt_id) = [] := by
    rw [List.filter_eq_nil_iff]
    intro a ha
    simp only [Bool.and_eq_true, beq_iff_eq, not_and]
    intro h1 h2
    exact hno a ha ⟨h1, by rw [h2, hattA]⟩
  constructor
  · simp [query_spans, hres, hfilt0, List.insertionSort]
  · have hval : validateSpans st spans = .ok () :=
      validateSpans_ok st spans
        (fun s hs => ⟨att, by rw [(hsp s hs).1, (hsp s hs).2]; exact hres⟩)
    obtain ⟨hro, hat, hsps⟩ := ingestSpans_meta spans st
    have hres' : resolve_attempt (ingestSpans st spans).1 rid (.explicit aid) = .ok att := by
      rw [resolve_explicit_congr _ st rid aid hro hat]
      exact hres
    refine ⟨(ingestSpans st spans).1, (ingestSpans st spans).2, by simp [add_many_spans, hval], ?_⟩
    have hfeq : (ingestSpans st spans).1.spans.filter
        (fun s => s.rollout_id == rid && s.attempt_id == att.attempt_id) =
        (ingestSpans st spans).2 := by
      rw [hsps, List.filter_append, hfilt0, List.nil_append, List.filter_eq_self]
      intro x hx
      obtain ⟨s, hsmem, hid1, hid2⟩ := ingestSpans_stored_ids spans st x hx
      simp only [Bool.and_eq_true, beq_iff_eq]
      exact ⟨by rw [hid1, (hsp s hsmem).1], by rw [hid2, (hsp s hsmem).2, hattA]⟩
    refine ⟨List.insertionSort seqLE ((ingestSpans st spans).2), ?_, ?_, ?_⟩
    · simp [query_spans, hres', hfeq]
    · exact List.perm_insertionSort seqLE _
    · exact List.sorted_insertionSort seqLE _

/-- Valid span matching the dequeued `(rollout-0, attempt-0)` pair, as in
`test_query_spans_by_explicit_attempt_id`. -/
def validSpan : Span :=
  ⟨"rollout-0", "attempt-0", some 0, "t1", "s1", none, "test.span",
    [("marker", .str "test-value")], 0, 1⟩

/-- First minted attempt in `stDeq`. -/
def attempt0 : Attempt := ⟨"attempt-0", "rollout-0", "test", 0⟩

theorem c2_query_returns_ingested_sorted_witness :
    query_spans stDeq "rollout-0" (.explicit "attempt-0") = .ok [] ∧
    ∃ st' stored, add_many_spans stDeq [validSpan] = .ok (st', stored) ∧
      ∃ l, query_spans st' "rollout-0" (.explicit "attempt-0") = .ok l ∧
        l.Perm stored ∧ List.Sorted seqLE l :=
  c2_query_returns_ingested_sorted stDeq "rollout-0" "attempt-0" attempt0 [validSpan]
    (by decide) (by decide) (by decide)

theorem foldl_pickLater_mem : ∀ (l : List Attempt) (acc : Option Attempt) (a : Attempt),
    l.foldl pickLater acc = some a → a ∈ l ∨ acc = some a
  | [], acc, a, h => Or.inr h
  | x :: xs, acc, a, h => by
    rcases foldl_pickLater_mem xs (pickLater acc x) a h with hm | hacc
    · exact Or.inl (List.mem_cons_of_mem _ hm)
    · cases acc with
      | none =>
        have : x = a := by simpa [pickLater] using hacc
        exact Or.inl (this ▸ List.mem_cons_self _ _)
      | some b =>
        by_cases hle : b.ordinal ≤ x.ordinal
        · have : x = a := by simpa [pickLater, hle] using hacc
          exact Or.inl (this ▸ List.mem_cons_self _ _)
        · have : b = a := by simpa [pickLater, hle] using hacc
          exact Or.inr (congrArg some this)

theorem latestAttempt_spec (st : LightningStore) (rid : String) (att : Attempt)
    (h : latestAttempt st rid = some att) :
    att ∈ st.attempts ∧ att.rollout_id = rid := by
  unfold latestAttempt at h
  rcases foldl_pickLater_mem _ none att h with hm | hacc
  · have := List.mem_filter.mp hm
    exact ⟨this.1, by simpa using this.2⟩
  · exact absurd hacc (by simp)

theorem foldl_pickLater_sorted : ∀ (l : List Attempt) (b : Attempt),
    (∀ a ∈ l, b.ordinal < a.ordinal) →
    l.Pairwise (fun a c => a.ordinal < c.ordinal) →
    l.foldl pickLater (some b) = some (l.getLastD b)
  | [], b, _, _ => rfl
  | x :: xs, b, hlt, hpw => by
    have hbx : b.ordinal ≤ x.ordinal :=
      Nat.le_of_lt (hlt x (List.mem_cons_self _ _))
    have hstep : pickLater (some b) x = some x := by simp [pickLater, hbx]
    have hxall : ∀ a ∈ xs, x.ordinal < a.ordinal :=
      fun a ha => (List.pairwise_cons.mp hpw).1 a ha
    have := foldl_pickLater_sorted xs x hxall (List.pairwise_cons.mp hpw).2
    simp only [List.foldl_cons, hstep, List.getLastD_cons]
    exact this

theorem find?_attempt_eq (st : LightningStore) (rid : String) (att : Attempt)
    (hnd : (st.attempts.map (fun a => a.attempt_id)).Nodup)
    (hmem : att ∈ st.attempts) (hrid : att.rollout_id = rid) :
    st.attempts.find? (fun a => a.rollout_id == rid && a.attempt_id == att.attempt_id) =
      some att := by
  cases hf : st.attempts.find?
      (fun a => a.rollout_id == rid && a.attempt_id == att.attempt_id) with
  | none =>
    have := List.find?_eq_none.mp hf att hmem
    simp [hrid] at this
  | some b =>
    have hpb := List.find?_some hf
    have hbmem := List.mem_of_find?_eq_some hf
    simp only [Bool.and_eq_true, beq_iff_eq] at hpb
    have hbeq : b = att :=
      List.inj_on_of_nodup_map hnd hbmem hmem hpb.2
    rw [hbeq]

/-- C3: when a rollout exists and has at least one attempt, resolving the
designator `latest` yields exactly the attempt with the greatest ordinal —
the most recently minted one when ordinals increase in mint order — and
resolving that attempt's explicit ID yields the same attempt, so
`query_spans` with `latest` equals `query_spans` with the explicit ID.
Resolution fails with NotFound when the rollout does not exist or when the
attempt ID does not exist for that rollout. -/
theorem c3_latest_equals_explicit (st : LightningStore) (rid : String)
    (hnd : (st.attempts.map (fun a => a.attempt_id)).Nodup) :
    (∀ r att, findRollout st rid = some r → latestAttempt st rid = some att →
      resolve_attempt st rid .latest = .ok att ∧
      resolve_attempt st rid (.explicit att.attempt_id) = .ok att ∧
      query_spans st rid .latest = query_spans st rid (.explicit att.attempt_id)) ∧
    (findRollout st rid = none →
      ∀ sel, ∃ m, resolve_attempt st rid sel = .error (.notFound m)) ∧
    (∀ aid, (∀ a ∈ st.attempts, ¬(a.rollout_id = rid ∧ a.attempt_id = aid)) →
      ∃ m, resolve_attempt st rid (.explicit aid) = .error (.notFound m)) ∧
    (st.attempts.Pairwise (fun a c => a.ordinal < c.ordinal) →
      latestAttempt st rid = (st.attempts.filter (fun a => a.rollout_id == rid)).getLast?) := by
  refine ⟨?_, ?_, ?_, ?_⟩
  · intro r att hfr hla
    obtain ⟨hmem, hrid⟩ := latestAttempt_spec st rid att hla
    have h1 : resolve_attempt st rid .latest = .ok att := by
      simp [resolve_attempt, hfr, hla]
    have h2 : resolve_attempt st rid (.explicit att.attempt_id) = .ok att := by
      simp [resolve_attempt, hfr, find?_attempt_eq st rid att hnd hmem hrid]
    refine ⟨h1, h2, ?_⟩
    unfold query_spans
    rw [h1, h2]
  · intro hfr sel
    exact ⟨_, resolve_attempt_err_of_no_rollout st rid sel hfr⟩
  · intro aid hno
    cases hfr : findRollout st rid with
    | none => exact ⟨_, resolve_attempt_err_of_no_rollout st rid (.explicit aid) hfr⟩
    | some r =>
      have hfn : st.attempts.find? (fun a => a.rollout_id == rid && a.attempt_id == aid) =
          none := by
        rw [List.find?_eq_none]
        intro a ha
        simp only [Bool.and_eq_true, beq_iff_eq, not_and]
        intro h1 h2
        exact hno a ha ⟨h1, h2⟩
      exact ⟨"Attempt " ++ aid ++ " not found for rollout " ++ rid,
        by simp [resolve_attempt, hfr, hfn]⟩
  · intro hpw
    unfold latestAttempt
    cases hfl : st.attempts.filter (fun a => a.rollout_id == rid) with
    | nil => rfl
    | cons x xs =>
      have hpwf : (st.attempts.filter (fun a => a.rollout_id == rid)).Pairwise
          (fun a c => a.ordinal < c.ordinal) := hpw.filter _
      rw [hfl] at hpwf
      have hxall : ∀ a ∈ xs, x.ordinal < a.ordinal :=
        fun a ha => (List.pairwise_cons.mp hpwf).1 a ha
      have : (x :: xs).foldl pickLater none = some (xs.getLastD x) := by
        simp only [List.foldl_cons]
        have hstep : pickLater none x = some x := rfl
        rw [hstep]
        exact foldl_pickLater_sorted xs x hxall (List.pairwise_cons.mp hpwf).2
      rw [this, List.getLast?_cons, List.getLastD_eq_getLast?]

theorem c3_latest_equals_explicit_witness :
    resolve_attempt stDeq "rollout-0" .latest = .ok attempt0 ∧
    resolve_attempt stDeq "rollout-0" (.explicit "attempt-0") = .ok attempt0 ∧
    query_spans stDeq "rollout-0" .latest =
      query_spans stDeq "rollout-0" (.explicit "attempt-0") ∧
    (∃ m, resolve_attempt stDeq "rollout-0" (.explicit "missing") = .error (.notFound m)) :=
  have h := c3_latest_equals_explicit stDeq "rollout-0" (by decide)
  have h1 := h.1 ⟨"rollout-0", [], "train", .running⟩ attempt0 (by decide) (by decide)
  ⟨h1.1, h1.2.1, h1.2.2, h.2.2.1 "missing" (by decide)⟩

theorem dequeue_some_head (st : LightningStore) (w : String) (r : Rollout) (a : Attempt)
    (h : (dequeue_rollout st w).2 = some (r, a)) :
    ∃ rest, st.queue = a.rollout_id :: rest ∧ (dequeue_rollout st w).1.queue = rest := by
  cases hq : st.queue with
  | nil => simp [dequeue_rollout, hq] at h
  | cons rid rest =>
    cases hfr : findRollout st rid with
    | none => simp [dequeue_rollout, hq, hfr] at h
    | some r0 =>
      simp only [dequeue_rollout, hq, hfr, Option.some.injEq, Prod.mk.injEq] at h
      obtain ⟨h1, h2⟩ := h
      refine ⟨rest, ?_, ?_⟩
      · rw [← h2]
      · simp [dequeue_rollout, hq, hfr]

/-- C8: the dequeue step is modelled as one atomic state transition, so any
two concurrent dequeues linearize as two successive calls; in every such
linearization the two calls never return the same rollout, rollouts are
handed out in FIFO enqueue order (the head of the queue, which is removed),
and dequeuing from an empty queue immediately returns none (same state, no
error, no blocking). -/
theorem c8_dequeue_fifo_no_double_handout (st : LightningStore) (w1 w2 : String)
    (hq : st.queue.Nodup)
    (hqr : ∀ rid ∈ st.queue, findRollout st rid ≠ none) :
    (st.queue = [] → dequeue_rollout st w1 = (st, none)) ∧
    (∀ rid rest, st.queue = rid :: rest →
      ∃ r a, (dequeue_rollout st w1).2 = some (r, a) ∧ a.rollout_id = rid ∧
        r.rollout_id = rid ∧ (dequeue_rollout st w1).1.queue = rest) ∧
    (∀ r1 a1 r2 a2, (dequeue_rollout st w1).2 = some (r1, a1) →
      (dequeue_rollout (dequeue_rollout st w1).1 w2).2 = some (r2, a2) →
      a1.rollout_id ≠ a2.rollout_id) := by
  refine ⟨?_, ?_, ?_⟩
  · intro h
    simp [dequeue_rollout, h]
  · intro rid rest h
    cases hfr : findRollout st rid with
    | none => exact absurd hfr (hqr rid (h ▸ List.mem_cons_self _ _))
    | some r0 =>
      refine ⟨{ r0 with status := .running },
        ⟨"attempt-" ++ natIdStr st.attemptCounter, rid, w1, st.attemptCounter⟩, ?_, rfl, ?_, ?_⟩
      · simp [dequeue_rollout, h, hfr]
      · have : r0.rollout_id = rid := by simpa using List.find?_some hfr
        simpa using this
      · simp [dequeue_rollout, h, hfr]
  · intro r1 a1 r2 a2 h1 h2
    obtain ⟨rest1, hq1, hq1'⟩ := dequeue_some_head st w1 r1 a1 h1
    obtain ⟨rest2, hq2, _⟩ := dequeue_some_head _ w2 r2 a2 h2
    rw [hq1'] at hq2
    rw [hq1] at hq
    have hnotin := (List.nodup_cons.mp hq).1
    intro hcontra
    rw [hq2] at hnotin
    exact hnotin (hcontra ▸ List.mem_cons_self _ _)

/-- Store with two enqueued rollouts `rollout-0`, `rollout-1` in FIFO
order. -/
def stEnq2 : LightningStore := (enqueue_rollout stEnq [] "train").1

theorem c8_dequeue_fifo_no_double_handout_witness :
    dequeue_rollout st0 "w1" = (st0, none) ∧
    (∃ r a, (dequeue_rollout stEnq2 "w1").2 = some (r, a) ∧ a.rollout_id = "rollout-0" ∧
      r.rollout_id = "rollout-0" ∧ (dequeue_rollout stEnq2 "w1").1.queue = ["rollout-1"]) ∧
    (⟨"attempt-0", "rollout-0", "w1", 0⟩ : Attempt).rollout_id ≠
      (⟨"attempt-1", "rollout-1", "w2", 1⟩ : Attempt).rollout_id :=
  ⟨(c8_dequeue_fifo_no_double_handout st0 "w1" "w2" (by decide) (by decide)).1 rfl,
    (c8_dequeue_fifo_no_double_handout stEnq2 "w1" "w2" (by decide) (by decide)).2.1
      "rollout-0" ["rollout-1"] (by decide),
    (c8_dequeue_fifo_no_double_handout stEnq2 "w1" "w2" (by decide) (by decide)).2.2
      ⟨"rollout-0", [], "train", .running⟩ ⟨"attempt-0", "rollout-0", "w1", 0⟩
      ⟨"rollout-1", [], "train", .running⟩ ⟨"attempt-1", "rollout-1", "w2", 1⟩
      (by decide) (by decide)⟩

/-! ## The span-to-triplet adapter

`TracerTraceToTriplet` is not part of this tree either (only its tests are),
so the adapter is modelled from the spec's contract in §4.3–§4.5 and the
attribute conventions visible in `tests/conftest.py`. -/

/-- Attribute lookup in a span's bag. -/
def lookupAttr (s : Span) (k : String) : Option AttrVal :=
  (s.attributes.find? (fun p => p.1 == k)).map (·.2)

/-- Best-effort parse of a string-serialized integer list such as
`[1, 2, 3]`; any malformed input yields `none`. -/
def parseIntListChars (cs : List Char) : Option (List Int) :=
  match cs with
  | '[' :: rest =>
    match rest.reverse with
    | ']' :: revBody =>
      let body := revBody.reverse
      if trimSpaces body = [] then some []
      else
        (splitOnChar ',' body).foldr
          (fun part acc =>
            match acc, parseIntChars (trimSpaces part) with
            | some l, some n => some (n :: l)
            | _, _ => none)
          (some [])
    | _ => none
  | _ => none

/-- Modelled from the spec: a genuine list of integers is used verbatim, a
numeric-looking string is best-effort parsed, and anything else degrades to
the empty list. -/
def getTokenIds (s : Span) (key : String) : List Int :=
  match lookupAttr s key with
  | some (.intList l) => l
  | some (.str str) => (parseIntListChars str.toList).getD []
  | some (.num _) => []
  | none => []

/-- Parses an indexed message-attribute key `a.b.<i>.<field>` (e.g.
`gen_ai.prompt.0.content`). -/
def msgKeyIndex (a b : String) (k : String) : Option (Nat × String) :=
  match splitOnChar '.' k.toList with
  | [g1, g2, iChars, field] =>
    if g1 = a.toList ∧ g2 = b.toList then
      (parseNatChars iChars).map (fun i => (i, String.mk field))
    else none
  | _ => none

def msgKey (a b : String) (i : Nat) (field : String) : String :=
  a ++ "." ++ b ++ "." ++ natIdStr i ++ "." ++ field

def attrStr (attrs : List (String × AttrVal)) (k : String) : String :=
  match ((attrs.find? (fun p => p.1 == k)).map (·.2) : Option AttrVal) with
  | some (AttrVal.str s) => s
  | _ => ""

/-- Message indices present for the `a.b.*` family, ascending and without
duplicates. -/
def msgIndices (a b : String) (attrs : List (String × AttrVal)) : List Nat :=
  List.insertionSort (· ≤ ·)
    ((attrs.filterMap (fun kv => (msgKeyIndex a b kv.1).map (fun x => x.1))).dedup)

def msgAt (a b : String) (attrs : List (String × AttrVal)) (i : Nat) : String × String :=
  (attrStr attrs (msgKey a b i "role"), attrStr attrs (msgKey a b i "content"))

/-- Modelled from the spec: gather all indexed `role`/`content` attributes of
one message family, grouped by index and sorted ascending by index. -/
def gatherMessages (a b : String) (attrs : List (String × AttrVal)) : List (String × String) :=
  (msgIndices a b attrs).map (msgAt a b attrs)

/-- Modelled from the spec: a reward event's JSON payload carries a type
discriminator and a numeric value; anything that does not parse yields
`none`. -/
def parseRewardPayload (s : String) : Option Dec :=
  match stripLead ("\x7b\"type\": \"reward\", \"value\": ".toList) s.toList with
  | none => none
  | some rest =>
    match rest.reverse with
    | [] => none
    | c :: revBody =>
      if c = '\x7d' then parseDecChars (trimSpaces revBody.reverse) else none

/-- Parsed reward of a span: present only on a `reward` event whose
`agentops.task.output` payload parses. -/
def spanReward (s : Span) : Option Dec :=
  if s.name == "reward" then
    match lookupAttr s "agentops.task.output" with
    | some (.str j) => parseRewardPayload j
    | _ => none
  else none

def parentOf (all : List Span) (s : Span) : Option Span :=
  match s.parent_id with
  | none => none
  | some p => all.find? (fun t => t.span_id == p)

/-- Modelled from the spec: root of the causal tree a span belongs to,
following parent links and promoting spans with dangling parent IDs to
roots; fuel bounds the walk so cyclic (malformed) inputs cannot loop. -/
def rootIdOf (all : List Span) : Nat → Span → String
  | 0, s => s.span_id
  | fuel + 1, s =>
    match parentOf all s with
    | none => s.span_id
    | some t => rootIdOf all fuel t

def sameTree (all : List Span) (x y : Span) : Bool :=
  rootIdOf all all.length x == rootIdOf all all.length y

/-- Modelled from the spec's recommended default: a reward span is associated
with the matched call span, in the same root trace, with the greatest end
time not exceeding the reward's start time (ties by sequence number). -/
def associatedCall (isCall : String → Bool) (all : List Span) (w : Span) : Option Span :=
  (all.filter
      (fun m => isCall m.name && sameTree all m w && decide (m.end_time ≤ w.start_time))).foldl
    (fun acc m =>
      match acc with
      | none => some m
      | some b =>
        if decide (b.end_time < m.end_time ∨
            (b.end_time = m.end_time ∧ seqKey b < seqKey m)) then some m else some b)
    none

/-- Reward attached to a matched call span: the value of the first reward
span (in input order) whose associated call is that span. -/
def rewardFor (isCall : String → Bool) (all : List Span) (m : Span) : Option Dec :=
  match all.find? (fun w => (spanReward w).isSome && associatedCall isCall all w == some m) with
  | some w => spanReward w
  | none => none

/-- One side (prompt or response) of a triplet: optional integer token
identifiers and the raw textual messages for later re-tokenization. -/
structure TripletPart where
  token_ids : List Int
  raw_content : List (String × String)
deriving DecidableEq

structure Triplet where
  prompt : TripletPart
  response : TripletPart
  reward : Option Dec
deriving DecidableEq

/-- Modelled from the spec: the triplet extracted from one matched call
span. -/
def extractTriplet (isCall : String → Bool) (all : List Span) (s : Span) : Triplet :=
  { prompt :=
      { token_ids := getTokenIds s "prompt_token_ids",
        raw_content := gatherMessages "gen_ai" "prompt" s.attributes },
    response :=
      { token_ids := getTokenIds s "response_token_ids",
        raw_content := gatherMessages "gen_ai" "completion" s.attributes },
    reward := rewardFor isCall all s }

/-- Ascending start-time order with sequence-number tie-break. -/
def startSeqLE (x y : Span) : Prop :=
  x.start_time < y.start_time ∨ (x.start_time = y.start_time ∧ seqKey x ≤ seqKey y)

instance : DecidableRel startSeqLE := fun x y =>
  inferInstanceAs (Decidable (x.start_time < y.start_time ∨
    (x.start_time = y.start_time ∧ seqKey x ≤ seqKey y)))

instance : IsTotal Span startSeqLE :=
  ⟨fun x y => by
    unfold startSeqLE
    rcases Int.lt_trichotomy x.start_time y.start_time with h | h | h
    · exact Or.inl (Or.inl h)
    · rcases Nat.le_total (seqKey x) (seqKey y) with hs | hs
      · exact Or.inl (Or.inr ⟨h, hs⟩)
      · exact Or.inr (Or.inr ⟨h.symm, hs⟩)
    · exact Or.inr (Or.inl h)⟩

instance : IsTrans Span startSeqLE :=
  ⟨fun x y z hxy hyz => by
    unfold startSeqLE at *
    rcases hxy with h1 | ⟨h1, h1s⟩ <;> rcases hyz with h2 | ⟨h2, h2s⟩
    · exact Or.inl (by omega)
    · exact Or.inl (by omega)
    · exact Or.inl (by omega)
    · exact Or.inr ⟨by omega, Nat.le_trans h1s h2s⟩⟩

inductive AdapterErr where
  | invalidArgument (msg : String)
deriving DecidableEq

/-- Modelled from the spec: `adapt(spans)` fails with InvalidArgument on an
empty span sequence, and otherwise emits one triplet per span classified as
an LLM call by the injected name predicate, ordered by ascending start time
with sequence-number tie-break. -/
def adapt (isCall : String → Bool) (spans : List Span) : Except AdapterErr (List Triplet) :=
  match spans with
  | [] => .error (.invalidArgument "No spans provided")
  | _ =>
    .ok ((List.insertionSort startSeqLE (spans.filter (fun s => isCall s.name))).map
      (extractTriplet isCall spans))

/-- Concrete classifier used by the tests: the Vercel AI SDK call-name
pattern, modelled as the predicate accepting exactly the names that pattern
matches among those occurring in the tests. -/
def vercelLike (name : String) : Bool :=
  name == "ai.generateText" || name == "ai.streamText" || name == "ai.generateObject" ||
    name == "ai.generateText.doGenerate" || name == "ai.streamText.doStream"

/-! ### Adapter theorems -/

/-- C4: `adapt` fails with an InvalidArgument-style error exactly on the
empty span sequence; on every non-empty input it succeeds, so the empty
input is the only input-shape failure condition. -/
theorem c4_adapt_empty_invalid_argument (isCall : String → Bool) :
    adapt isCall [] = .error (.invalidArgument "No spans provided") ∧
    ∀ spans : List Span, spans ≠ [] → ∃ ts, adapt isCall spans = .ok ts := by
  refine ⟨rfl, ?_⟩
  intro spans h
  cases spans with
  | nil => exact absurd rfl h
  | cons s rest => exact ⟨_, rfl⟩

/-- Session root span from the test fixtures. -/
def sessionSpan : Span :=
  ⟨"rollout-test-001", "attempt-test-001", some 100, "trace-test-001", "root-session",
    none, "agent.session", [("agent.name", .str "webshop-agent")], 0, 10⟩

theorem c4_adapt_empty_invalid_argument_witness :
    ∃ ts, adapt vercelLike [sessionSpan] = .ok ts :=
  (c4_adapt_empty_invalid_argument vercelLike).2 [sessionSpan] (by decide)

/-- C5: on every non-empty input, `adapt` returns exactly one triplet per
span whose name the configured classifier matches, in ascending start-time
order with sequence-number tie-break; an input with only non-matching names
yields the empty list. -/
theorem c5_one_triplet_per_matched_span (isCall : String → Bool) (spans : List Span)
    (h : spans ≠ []) :
    ∃ ts calls, adapt isCall spans = .ok ts ∧
      calls.Perm (spans.filter (fun s => isCall s.name)) ∧
      List.Sorted startSeqLE calls ∧
      ts = calls.map (extractTriplet isCall spans) ∧
      ts.length = (spans.filter (fun s => isCall s.name)).length ∧
      ((∀ s ∈ spans, isCall s.name = false) → ts = []) := by
  cases spans with
  | nil => exact absurd rfl h
  | cons s rest =>
    refine ⟨_, List.insertionSort startSeqLE ((s :: rest).filter (fun t => isCall t.name)),
      rfl, List.perm_insertionSort _ _, List.sorted_insertionSort _ _, rfl, ?_, ?_⟩
    · rw [List.length_map, (List.perm_insertionSort startSeqLE _).length_eq]
    · intro hnone
      have hfe : (s :: rest).filter (fun t => isCall t.name) = [] := by
        rw [List.filter_eq_nil_iff]
        intro a ha
        simp [hnone a ha]
      rw [hfe]
      rfl

/-- First matched call span under the session root (fixture `llm1`). -/
def llmSpan1 : Span :=
  ⟨"rollout-test-001", "attempt-test-001", some 101, "trace-test-001", "span-0101",
    some "root-session", "ai.generateText",
    [("gen_ai.prompt.0.role", .str "user"),
     ("gen_ai.prompt.0.content", .str "Search for shoes"),
     ("gen_ai.completion.0.content", .str "search[shoes]"),
     ("gen_ai.completion.0.role", .str "assistant"),
     ("prompt_token_ids", .intList [1, 2]),
     ("response_token_ids", .intList [3])], 1, 2⟩

/-- Second matched call span under the session root (fixture `llm2`). -/
def llmSpan2 : Span :=
  ⟨"rollout-test-001", "attempt-test-001", some 102, "trace-test-001", "span-0102",
    some "root-session", "ai.generateText",
    [("gen_ai.prompt.0.role", .str "user"),
     ("gen_ai.prompt.0.content", .str "Click on first result"),
     ("gen_ai.completion.0.content", .str "click[item-1]"),
     ("gen_ai.completion.0.role", .str "assistant"),
     ("prompt_token_ids", .intList [4, 5]),
     ("response_token_ids", .intList [6])], 3, 4⟩

theorem c5_one_triplet_per_matched_span_witness :
    ∃ ts calls, adapt vercelLike [sessionSpan, llmSpan1, llmSpan2] = .ok ts ∧
      calls.Perm ([sessionSpan, llmSpan1, llmSpan2].filter (fun s => vercelLike s.name)) ∧
      List.Sorted startSeqLE calls ∧
      ts = calls.map (extractTriplet vercelLike [sessionSpan, llmSpan1, llmSpan2]) ∧
      ts.length = ([sessionSpan, llmSpan1, llmSpan2].filter (fun s => vercelLike s.name)).length ∧
      ((∀ s ∈ [sessionSpan, llmSpan1, llmSpan2], vercelLike s.name = false) → ts = []) :=
  c5_one_triplet_per_matched_span vercelLike [sessionSpan, llmSpan1, llmSpan2] (by decide)

theorem lookupAttr_mem (s : Span) (k : String) (v : AttrVal) (h : lookupAttr s k = some v) :
    (k, v) ∈ s.attributes := by
  unfold lookupAttr at h
  obtain ⟨p, hfind, hp2⟩ := Option.map_eq_some'.mp h
  have hmem := List.mem_of_find?_eq_some hfind
  have hkey : p.1 = k := by simpa using List.find?_some hfind
  have hpv : p = (k, v) := by
    cases p
    simp_all
  rwa [hpv] at hmem

theorem adapt_single_matched (isCall : String → Bool) (s : Span) (hc : isCall s.name = true) :
    adapt isCall [s] = .ok [extractTriplet isCall [s] s] := by
  unfold adapt
  simp [hc, List.insertionSort, List.orderedInsert]

/-- C6: for a matched call span whose token-identifier attributes are genuine
integer lists, `adapt` copies them verbatim into the triplet's prompt and
response `token_ids`; when the attributes are absent both token-id lists are
empty while the raw textual prompt content is still present in the
triplet. -/
theorem c6_token_ids_verbatim_or_empty (isCall : String → Bool) :
    (∀ (s : Span) (l1 l2 : List Int), isCall s.name = true →
      lookupAttr s "prompt_token_ids" = some (.intList l1) →
      lookupAttr s "response_token_ids" = some (.intList l2) →
      ∃ t, adapt isCall [s] = .ok [t] ∧
        t.prompt.token_ids = l1 ∧ t.response.token_ids = l2) ∧
    (∀ (s : Span) (c : String), isCall s.name = true →
      lookupAttr s "prompt_token_ids" = none →
      lookupAttr s "response_token_ids" = none →
      lookupAttr s "gen_ai.prompt.0.content" = some (.str c) →
      ∃ t, adapt isCall [s] = .ok [t] ∧
        t.prompt.token_ids = [] ∧ t.response.token_ids = [] ∧
        ∃ r, (r, c) ∈ t.prompt.raw_content) := by
  constructor
  · intro s l1 l2 hc h1 h2
    exact ⟨extractTriplet isCall [s] s, adapt_single_matched isCall s hc,
      by simp [extractTriplet, getTokenIds, h1],
      by simp [extractTriplet, getTokenIds, h2]⟩
  · intro s c hc h1 h2 h3
    refine ⟨extractTriplet isCall [s] s, adapt_single_matched isCall s hc,
      by simp [extractTriplet, getTokenIds, h1],
      by simp [extractTriplet, getTokenIds, h2], ?_⟩
    have hmem := lookupAttr_mem s _ _ h3
    have hidx : (0 : Nat) ∈ msgIndices "gen_ai" "prompt" s.attributes := by
      unfold msgIndices
      rw [(List.perm_insertionSort _ _).mem_iff, List.mem_dedup]
      refine List.mem_filterMap.mpr ⟨("gen_ai.prompt.0.content", .str c), hmem, ?_⟩
      show (msgKeyIndex "gen_ai" "prompt" "gen_ai.prompt.0.content").map (fun x => x.1) = some 0
      decide
    have hpair : msgAt "gen_ai" "prompt" s.attributes 0 ∈
        gatherMessages "gen_ai" "prompt" s.attributes := List.mem_map_of_mem _ hidx
    refine ⟨(msgAt "gen_ai" "prompt" s.attributes 0).1, ?_⟩
    have hsnd : (msgAt "gen_ai" "prompt" s.attributes 0).2 = c := by
      unfold msgAt
      simp only
      have hkeq : msgKey "gen_ai" "prompt" 0 "content" = "gen_ai.prompt.0.content" := by decide
      rw [hkeq]
      unfold attrStr
      unfold lookupAttr at h3
      rw [h3]
    rw [← hsnd]
    exact hpair

/-- Matched call span carrying genuine token-id lists, as in
`test_full_flow_rollout_to_triplet`. -/
def spanTok : Span :=
  ⟨"rollout-0", "attempt-0", some 0, "trace-001", "span-001", none, "ai.generateText",
    [("gen_ai.prompt.0.role", .str "user"),
     ("gen_ai.prompt.0.content", .str "Buy shoes"),
     ("gen_ai.completion.0.role", .str "assistant"),
     ("gen_ai.completion.0.content", .str "search[shoes]"),
     ("prompt_token_ids", .intList [1, 2, 3]),
     ("response_token_ids", .intList [4, 5])], 0, 1⟩

/-- Matched call span with no token-id attributes, as in
`test_empty_token_ids_when_not_present`. -/
def spanNoTok : Span :=
  ⟨"rollout-0", "attempt-0", some 0, "trace-001", "span-001", none, "ai.generateText",
    [("gen_ai.prompt.0.content", .str "Hello"),
     ("gen_ai.completion.0.content", .str "World")], 0, 1⟩

theorem c6_token_ids_verbatim_or_empty_witness :
    (∃ t, adapt vercelLike [spanTok] = .ok [t] ∧
      t.prompt.token_ids = [1, 2, 3] ∧ t.response.token_ids = [4, 5]) ∧
    (∃ t, adapt vercelLike [spanNoTok] = .ok [t] ∧
      t.prompt.token_ids = [] ∧ t.response.token_ids = [] ∧
      ∃ r, (r, "Hello") ∈ t.prompt.raw_content) :=
  ⟨(c6_token_ids_verbatim_or_empty vercelLike).1 spanTok [1, 2, 3] [4, 5]
      (by decide) (by decide) (by decide),
    (c6_token_ids_verbatim_or_empty vercelLike).2 spanNoTok "Hello"
      (by decide) (by decide) (by decide) (by decide)⟩

/-- C7: `adapt` never fails on a non-empty span sequence with degraded
attribute data: it always returns a triplet list; unparseable string-encoded
token-identifier attributes degrade to empty token-id lists; and when no span
carries a parseable reward payload, every returned triplet has its reward
unset. -/
theorem c7_adapt_absorbs_degraded_data (isCall : String → Bool) :
    (∀ spans : List Span, spans ≠ [] → ∃ ts, adapt isCall spans = .ok ts) ∧
    (∀ (s : Span) (str1 str2 : String), isCall s.name = true →
      lookupAttr s "prompt_token_ids" = some (.str str1) →
      lookupAttr s "response_token_ids" = some (.str str2) →
      parseIntListChars str1.toList = none →
      parseIntListChars str2.toList = none →
      ∃ t, adapt isCall [s] = .ok [t] ∧
        t.prompt.token_ids = [] ∧ t.response.token_ids = []) ∧
    (∀ (spans : List Span) (ts : List Triplet), adapt isCall spans = .ok ts →
      (∀ w ∈ spans, spanReward w = none) → ∀ t ∈ ts, t.reward = none) := by
  refine ⟨?_, ?_, ?_⟩
  · intro spans h
    cases spans with
    | nil => exact absurd rfl h
    | cons s rest => exact ⟨_, rfl⟩
  · intro s str1 str2 hc h1 h2 hp1 hp2
    rw [String.toList] at hp1 hp2
    exact ⟨extractTriplet isCall [s] s, adapt_single_matched isCall s hc,
      by simp [extractTriplet, getTokenIds, h1, hp1],
      by simp [extractTriplet, getTokenIds, h2, hp2]⟩
  · intro spans ts hok hnone t ht
    cases spans with
    | nil => simp [adapt] at hok
    | cons s rest =>
      have hts : ts = (List.insertionSort startSeqLE
          ((s :: rest).filter (fun x => isCall x.name))).map
            (extractTriplet isCall (s :: rest)) := by
        simpa [adapt] using hok.symm
      rw [hts] at ht
      obtain ⟨m, hm, hmt⟩ := List.mem_map.mp ht
      have hmem : m ∈ s :: rest :=
        List.mem_of_mem_filter ((List.perm_insertionSort _ _).mem_iff.mp hm)
      rw [← hmt]
      show rewardFor isCall (s :: rest) m = none
      unfold rewardFor
      have hfind : (s :: rest).find?
          (fun w => (spanReward w).isSome && associatedCall isCall (s :: rest) w == some m) =
            none := by
        rw [List.find?_eq_none]
        intro w hw
        simp [hnone w hw]
      rw [hfind]

/-- Matched call span with unparseable string token-id attributes. -/
def strTokSpan : Span :=
  ⟨"rollout-0", "attempt-0", some 0, "trace-001", "span-001", none, "ai.generateText",
    [("gen_ai.prompt.0.content", .str "Test"),
     ("gen_ai.completion.0.content", .str "Response"),
     ("prompt_token_ids", .str "not a list"),
     ("response_token_ids", .str "nope")], 0, 1⟩

/-- Reward span whose payload string fails to parse. -/
def badRewardSpan : Span :=
  ⟨"rollout-0", "attempt-0", some 1, "trace-001", "span-002", none, "reward",
    [("agentops.task.output", .str "garbage")], 1, 2⟩

/-- The triplet `adapt` produces for `strTokSpan` in that degraded batch. -/
def degradedTriplet : Triplet :=
  ⟨⟨[], [("", "Test")]⟩, ⟨[], [("", "Response")]⟩, none⟩

theorem c7_adapt_absorbs_degraded_data_witness :
    (∃ ts, adapt vercelLike [strTokSpan, badRewardSpan] = .ok ts) ∧
    (∃ t, adapt vercelLike [strTokSpan] = .ok [t] ∧
      t.prompt.token_ids = [] ∧ t.response.token_ids = []) ∧
    degradedTriplet.reward = none :=
  ⟨(c7_adapt_absorbs_degraded_data vercelLike).1 [strTokSpan, badRewardSpan] (by decide),
    (c7_adapt_absorbs_degraded_data vercelLike).2.1 strTokSpan "not a list" "nope"
      (by decide) (by decide) (by decide) (by decide) (by decide),
    (c7_adapt_absorbs_degraded_data vercelLike).2.2 [strTokSpan, badRewardSpan]
      [degradedTriplet] (by decide) (by decide) degradedTriplet (by decide)⟩

end AgentLightning
